import Mathlib

/-!
Verification of the UM-futures websocket convenience client.

The source under scrutiny is `binance/websocket/um_futures/websocket_client.py`:
the class `UMFuturesWebsocketClient`, whose methods format Binance stream names
from their arguments and hand the result to the inherited `live_subscribe`
primitive.  Each method is embedded as a pure Lean function from its explicit
arguments to the list of `live_subscribe` calls it performs (the list records
the method's entire observable effect; the methods touch no other state, so
the embedding carries none).

The core engine (subscription registry, connection supervisor) is not part of
this repository's files; the registry `add` operation and the reconnect replay
are modelled from the spec where a claim needs them.
-/

namespace BinanceWS

/-- Python `str.lower()` on a single character, restricted to the ASCII
fragment (stream symbols are ASCII tickers): `A`–`Z` maps to `a`–`z`,
everything else is fixed. -/
def pyCharLower (c : Char) : Char :=
  if 65 ≤ c.toNat ∧ c.toNat ≤ 90 then Char.ofNat (c.toNat + 32) else c

/-- Python `str.upper()` on a single character, ASCII fragment: `a`–`z`
maps to `A`–`Z`, everything else is fixed. -/
def pyCharUpper (c : Char) : Char :=
  if 97 ≤ c.toNat ∧ c.toNat ≤ 122 then Char.ofNat (c.toNat - 32) else c

/-- Python `str.lower()` (ASCII fragment), applied character-wise. -/
def pyLower (s : String) : String := ⟨s.data.map pyCharLower⟩

/-- Python `str.upper()` (ASCII fragment), applied character-wise. -/
def pyUpper (s : String) : String := ⟨s.data.map pyCharUpper⟩

/-- The `Union[str, List[str]]` argument type of `live_subscribe` and of
`partial_book_depth`'s `symbols` parameter: a single stream name or a list. -/
inductive StreamsArg where
  | one : String → StreamsArg
  | many : List String → StreamsArg
deriving DecidableEq

/-- One call to `self.live_subscribe(streams, id, callback, **kwargs)`.
`κ` is the opaque callback type, `μ` the opaque type of the forwarded
keyword arguments. -/
structure LiveSubscribeCall (κ : Type) (μ : Type) where
  streams : StreamsArg
  id : Int
  callback : κ
  kwargs : μ
deriving DecidableEq

variable {κ μ : Type}

/-- `UMFuturesWebsocketClient.__init__(self, stream_url="wss://fstream.binance.com")`:
the body is exactly `super().__init__(stream_url)`, so construction configures
the base URL and nothing else.  The `Option` argument models Python's default
parameter: `none` is a call omitting `stream_url`.  The result is the URL
handed to the `BinanceWebsocketClient` superclass constructor. -/
def init (stream_url : Option String) : String :=
  stream_url.getD "wss://fstream.binance.com"

/-- `agg_trade(self, symbol, id, callback, **kwargs)`:
`live_subscribe(f"{symbol.lower()}@aggTrade", id, callback, **kwargs)`. -/
def agg_trade (symbol : String) (i : Int) (callback : κ) (kwargs : μ) :
    List (LiveSubscribeCall κ μ) :=
  [{ streams := .one (pyLower symbol ++ "@aggTrade"),
     id := i, callback := callback, kwargs := kwargs }]

/-- `mark_price(self, symbol, id, speed, callback, **kwargs)`:
`live_subscribe(f"{symbol.lower()}@markPrice@{speed}s", id, callback, **kwargs)`. -/
def mark_price (symbol : String) (i : Int) (speed : Int) (callback : κ) (kwargs : μ) :
    List (LiveSubscribeCall κ μ) :=
  [{ streams := .one (pyLower symbol ++ "@markPrice@" ++ toString speed ++ "s"),
     id := i, callback := callback, kwargs := kwargs }]

/-- `kline(self, symbol, id, interval, callback, **kwargs)`:
`live_subscribe(f"{symbol.lower()}@kline_{interval}", id, callback, **kwargs)`. -/
def kline (symbol : String) (i : Int) (interval : String) (callback : κ) (kwargs : μ) :
    List (LiveSubscribeCall κ μ) :=
  [{ streams := .one (pyLower symbol ++ "@kline_" ++ interval),
     id := i, callback := callback, kwargs := kwargs }]

/-- `continuous_kline(self, pair, id, contractType, interval, callback, **kwargs)`:
`live_subscribe(f"{pair.lower()}_{contractType}@continuousKline_{interval}", id,
callback, **kwargs)`.  Only `pair` is lowercased. -/
def continuous_kline (pair : String) (i : Int) (contractType : String)
    (interval : String) (callback : κ) (kwargs : μ) : List (LiveSubscribeCall κ μ) :=
  [{ streams := .one (pyLower pair ++ "_" ++ contractType ++ "@continuousKline_"
       ++ interval),
     id := i, callback := callback, kwargs := kwargs }]

/-- `mini_ticker(self, id, callback, symbol=None, **kwargs)`:
`"!miniTicker@arr"` when `symbol is None`, else `f"{symbol.lower()}@miniTicker"`. -/
def mini_ticker (i : Int) (callback : κ) (symbol : Option String) (kwargs : μ) :
    List (LiveSubscribeCall κ μ) :=
  match symbol with
  | none => [{ streams := .one "!miniTicker@arr",
               id := i, callback := callback, kwargs := kwargs }]
  | some s => [{ streams := .one (pyLower s ++ "@miniTicker"),
                 id := i, callback := callback, kwargs := kwargs }]

/-- `ticker(self, id, callback, symbol=None, **kwargs)`:
`"!ticker@arr"` when `symbol is None`, else `f"{symbol.lower()}@ticker"`. -/
def ticker (i : Int) (callback : κ) (symbol : Option String) (kwargs : μ) :
    List (LiveSubscribeCall κ μ) :=
  match symbol with
  | none => [{ streams := .one "!ticker@arr",
               id := i, callback := callback, kwargs := kwargs }]
  | some s => [{ streams := .one (pyLower s ++ "@ticker"),
                 id := i, callback := callback, kwargs := kwargs }]

/-- `book_ticker(self, id, callback, symbol=None, **kwargs)`:
`"!bookTicker"` when `symbol is None`, else `f"{symbol.lower()}@bookTicker"`. -/
def book_ticker (i : Int) (callback : κ) (symbol : Option String) (kwargs : μ) :
    List (LiveSubscribeCall κ μ) :=
  match symbol with
  | none => [{ streams := .one "!bookTicker",
               id := i, callback := callback, kwargs := kwargs }]
  | some s => [{ streams := .one (pyLower s ++ "@bookTicker"),
                 id := i, callback := callback, kwargs := kwargs }]

/-- `liquidation_order(self, id, callback, symbol=None, **kwargs)`:
`"!forceOrder@arr"` when `symbol is None`, else `f"{symbol.lower()}@forceOrder"`. -/
def liquidation_order (i : Int) (callback : κ) (symbol : Option String) (kwargs : μ) :
    List (LiveSubscribeCall κ μ) :=
  match symbol with
  | none => [{ streams := .one "!forceOrder@arr",
               id := i, callback := callback, kwargs := kwargs }]
  | some s => [{ streams := .one (pyLower s ++ "@forceOrder"),
                 id := i, callback := callback, kwargs := kwargs }]

/-- The depth stream name `f"{s.lower()}@depth{level}@{speed}ms"` built inside
`partial_book_depth`. -/
def depthStreamName (s : String) (level : Int) (speed : Int) : String :=
  pyLower s ++ "@depth" ++ toString level ++ "@" ++ toString speed ++ "ms"

/-- `partial_book_depth(self, symbols, id, level, speed, callback, **kwargs)`:
when `symbols` is a list, `streams` is the list of formatted names (same
order); otherwise a single formatted name.  Either way one call
`live_subscribe(streams, id, callback, **kwargs)` follows. -/
def partial_book_depth (symbols : StreamsArg) (i : Int) (level : Int)
    (speed : Int) (callback : κ) (kwargs : μ) : List (LiveSubscribeCall κ μ) :=
  match symbols with
  | .many l =>
      [{ streams := .many (l.map fun s => depthStreamName s level speed),
         id := i, callback := callback, kwargs := kwargs }]
  | .one s =>
      [{ streams := .one (depthStreamName s level speed),
         id := i, callback := callback, kwargs := kwargs }]

/-- `diff_book_depth(self, symbol, id, speed, callback, **kwargs)`:
`live_subscribe(f"{symbol.lower()}@depth@{speed}ms", id, callback, **kwargs)`. -/
def diff_book_depth (symbol : String) (i : Int) (speed : Int) (callback : κ)
    (kwargs : μ) : List (LiveSubscribeCall κ μ) :=
  [{ streams := .one (pyLower symbol ++ "@depth@" ++ toString speed ++ "ms"),
     id := i, callback := callback, kwargs := kwargs }]

/-- `composite_index(self, symbol, id, callback, **kwargs)`:
`live_subscribe(f"{symbol.lower()}@compositeIndex", id, callback, **kwargs)`. -/
def composite_index (symbol : String) (i : Int) (callback : κ) (kwargs : μ) :
    List (LiveSubscribeCall κ μ) :=
  [{ streams := .one (pyLower symbol ++ "@compositeIndex"),
     id := i, callback := callback, kwargs := kwargs }]

/-- `user_data(self, listen_key, id, callback, **kwargs)`:
`live_subscribe(listen_key, id, callback, **kwargs)` — the key verbatim. -/
def user_data (listen_key : String) (i : Int) (callback : κ) (kwargs : μ) :
    List (LiveSubscribeCall κ μ) :=
  [{ streams := .one listen_key, id := i, callback := callback, kwargs := kwargs }]

/-- Modelled from the spec: a Subscription's lifecycle states,
`state ∈ {Pending, Active, Unsubscribing, Removed}` (the core engine holding
them is not among this repository's files). -/
inductive SubState where
  | Pending | Active | Unsubscribing | Removed
deriving DecidableEq

/-- Modelled from the spec: a registry entry,
`id` (caller-supplied), `streamNames` (ordered), `callback` (opaque), `state`. -/
structure Subscription (κ : Type) where
  id : Int
  streams : List String
  callback : κ
  state : SubState
deriving DecidableEq

/-- Modelled from the spec: the SubscriptionRegistry, an in-memory mapping of
subscription id to (stream names, callback, state), kept here as the ordered
list of entries. -/
structure Registry (κ : Type) where
  subs : List (Subscription κ)
deriving DecidableEq

/-- Modelled from the spec: the caller-error taxonomy entries returned
synchronously by registry operations. -/
inductive RegError where
  | DuplicateSubscriptionId | UnknownSubscriptionId
deriving DecidableEq

/-- Whether `i` is "already present and not `Removed`" in the registry. -/
def Registry.hasLiveId (r : Registry κ) (i : Int) : Bool :=
  r.subs.any fun s => s.id == i && !(s.state == SubState.Removed)

/-- Modelled from the spec: `add(id, streams, callback) -> Result<(), DuplicateId>`,
failing if `id` is already present and not `Removed`; on success it inserts a
`Pending` entry.  The returned pair is (caller-visible result, registry after
the call): on failure the registry is returned untouched. -/
def Registry.add (r : Registry κ) (i : Int) (streams : List String) (cb : κ) :
    Except RegError Unit × Registry κ :=
  if r.hasLiveId i then (.error .DuplicateSubscriptionId, r)
  else (.ok (), ⟨r.subs ++ [⟨i, streams, cb, .Pending⟩]⟩)

/-- Modelled from the spec: `snapshot() -> ordered sequence of active
Subscriptions`, used by the supervisor to replay after reconnect. -/
def Registry.snapshot (r : Registry κ) : List (Subscription κ) :=
  r.subs.filter fun s => s.state == SubState.Active

/-- Modelled from the spec: the outbound command kinds. -/
inductive CmdKind where
  | Subscribe | Unsubscribe
deriving DecidableEq

/-- Modelled from the spec: an outbound control command
`{method, params: [streamName, ...], id}`. -/
structure Command where
  kind : CmdKind
  id : Int
  params : List String
deriving DecidableEq

/-- Modelled from the spec: the replay procedure — the registry `snapshot()`
re-issued as Subscribe commands tagged with their original ids, in snapshot
order. -/
def replay (r : Registry κ) : List Command :=
  r.snapshot.map fun s => ⟨.Subscribe, s.id, s.streams⟩

/-- Modelled from the spec: the client state the supervisor drives — the
registry, whether the connection is live, and the server-visible subscription
set on the live connection (id paired with its streams). -/
structure ClientState (κ : Type) where
  registry : Registry κ
  connected : Bool
  serverSubs : List (Int × List String)
deriving DecidableEq

/-- Modelled from the spec: a connection drop.  The physical link and the
server-side view of its subscriptions are gone; the registry survives
untouched and no caller action occurs. -/
def connectionDrop (st : ClientState κ) : ClientState κ :=
  { st with connected := false, serverSubs := [] }

/-- Modelled from the spec: a successful reconnection.  On entering
`Connected` the supervisor atomically replays the registry snapshot as one
step — before any caller command is processed on the new connection — so the
server-visible set becomes exactly the replayed subscriptions. -/
def reconnect (st : ClientState κ) : ClientState κ :=
  { st with
    connected := true
    serverSubs := (replay st.registry).map fun c => (c.id, c.params) }

/-! Helper lemmas. -/

theorem char_toNat_ofNat_lt (n : Nat) (h : n < 55296) : (Char.ofNat n).toNat = n := by
  rw [Char.ofNat, dif_pos (Or.inl h)]
  rfl

theorem pyCharLower_pyCharUpper (c : Char) :
    pyCharLower (pyCharUpper c) = pyCharLower c := by
  unfold pyCharLower pyCharUpper
  by_cases h : 97 ≤ c.toNat ∧ c.toNat ≤ 122
  · rw [if_pos h]
    have h1 : (Char.ofNat (c.toNat - 32)).toNat = c.toNat - 32 :=
      char_toNat_ofNat_lt _ (by omega)
    have h2 : 65 ≤ (Char.ofNat (c.toNat - 32)).toNat ∧
        (Char.ofNat (c.toNat - 32)).toNat ≤ 90 := by
      rw [h1]
      omega
    have h3 : ¬(65 ≤ c.toNat ∧ c.toNat ≤ 90) := by omega
    rw [if_pos h2, if_neg h3, h1]
    have h4 : c.toNat - 32 + 32 = c.toNat := by omega
    rw [h4, Char.ofNat_toNat]
  · rw [if_neg h]

theorem pyLower_pyUpper (s : String) : pyLower (pyUpper s) = pyLower s := by
  unfold pyLower pyUpper
  apply congrArg String.mk
  show (s.data.map pyCharUpper).map pyCharLower = s.data.map pyCharLower
  rw [List.map_map]
  have h : pyCharLower ∘ pyCharUpper = pyCharLower :=
    funext pyCharLower_pyCharUpper
  rw [h]

/-! Claim theorems. -/

/-- C6: a no-argument construction of `UMFuturesWebsocketClient` configures
the base URL "wss://fstream.binance.com"; an explicit `stream_url` configures
exactly that URL; the URL handed to the superclass is the whole configuration
the constructor performs. -/
theorem init_configures_base_url_only (u : String) :
    init none = "wss://fstream.binance.com" ∧ init (some u) = u :=
  ⟨rfl, rfl⟩

/-- C3: `agg_trade(s, i, cb)` calls `live_subscribe` with stream name
`lower(s) ++ "@aggTrade"`, id `i` and callback `cb` unchanged; in particular
`agg_trade("btcusdt", 1, cb)` subscribes to exactly "btcusdt@aggTrade". -/
theorem agg_trade_stream_name {κ μ : Type} (s : String) (i : Int) (cb : κ) (kw : μ) :
    agg_trade s i cb kw =
      [{ streams := .one (pyLower s ++ "@aggTrade"),
         id := i, callback := cb, kwargs := kw }] ∧
    agg_trade "btcusdt" 1 cb kw =
      [{ streams := .one "btcusdt@aggTrade",
         id := 1, callback := cb, kwargs := kw }] := by
  refine ⟨rfl, ?_⟩
  have h : pyLower "btcusdt" ++ "@aggTrade" = "btcusdt@aggTrade" := by decide
  simp only [agg_trade, h]

/-- C8: `mini_ticker`, `ticker`, `book_ticker` and `liquidation_order` with
`symbol=None` subscribe to the all-market stream ("!miniTicker@arr",
"!ticker@arr", "!bookTicker", "!forceOrder@arr" respectively), and with a
symbol `s` to the per-symbol stream (`lower(s)` followed by "@miniTicker",
"@ticker", "@bookTicker", "@forceOrder"); each branch makes exactly one
`live_subscribe` call. -/
theorem optional_symbol_stream_names {κ μ : Type} (i : Int) (cb : κ) (kw : μ)
    (s : String) :
    mini_ticker i cb none kw = [⟨.one "!miniTicker@arr", i, cb, kw⟩] ∧
    mini_ticker i cb (some s) kw =
      [⟨.one (pyLower s ++ "@miniTicker"), i, cb, kw⟩] ∧
    ticker i cb none kw = [⟨.one "!ticker@arr", i, cb, kw⟩] ∧
    ticker i cb (some s) kw = [⟨.one (pyLower s ++ "@ticker"), i, cb, kw⟩] ∧
    book_ticker i cb none kw = [⟨.one "!bookTicker", i, cb, kw⟩] ∧
    book_ticker i cb (some s) kw =
      [⟨.one (pyLower s ++ "@bookTicker"), i, cb, kw⟩] ∧
    liquidation_order i cb none kw = [⟨.one "!forceOrder@arr", i, cb, kw⟩] ∧
    liquidation_order i cb (some s) kw =
      [⟨.one (pyLower s ++ "@forceOrder"), i, cb, kw⟩] :=
  ⟨rfl, rfl, rfl, rfl, rfl, rfl, rfl, rfl⟩

/-- C10: `mark_price(s, i, v, cb)` subscribes to
`lower(s) ++ "@markPrice@" ++ v ++ "s"`, and no speed value makes it produce
the bare stream name `lower(s) ++ "@markPrice"`. -/
theorem mark_price_always_has_speed_suffix {κ μ : Type} (s : String) (i : Int)
    (v : Int) (cb : κ) (kw : μ) :
    mark_price s i v cb kw =
      [{ streams := .one (pyLower s ++ "@markPrice@" ++ toString v ++ "s"),
         id := i, callback := cb, kwargs := kw }] ∧
    ∀ v2 : Int,
      pyLower s ++ "@markPrice@" ++ toString v2 ++ "s" ≠
        pyLower s ++ "@markPrice" := by
  refine ⟨rfl, fun v2 h => ?_⟩
  have hl := congrArg String.length h
  have e1 : ("@markPrice@" : String).length = 11 := rfl
  have e2 : ("@markPrice" : String).length = 10 := rfl
  have e3 : ("s" : String).length = 1 := rfl
  rw [String.length_append, String.length_append, String.length_append,
      String.length_append, e1, e2, e3] at hl
  omega

/-- C1: `partial_book_depth` calls `live_subscribe` exactly once: given a list
of symbols it passes the list of formatted names
`lower(s) ++ "@depth" ++ level ++ "@" ++ speed ++ "ms"` in input order (same
length, j-th output formatted from the j-th input); given a single symbol it
passes the single formatted name; id, callback and kwargs pass through
unchanged. -/
theorem partial_book_depth_formats_streams {κ μ : Type} (syms : List String)
    (s : String) (i level speed : Int) (cb : κ) (kw : μ) :
    (∃ streams : List String,
      partial_book_depth (.many syms) i level speed cb kw =
        [{ streams := .many streams, id := i, callback := cb, kwargs := kw }] ∧
      streams.length = syms.length ∧
      ∀ j : Nat,
        streams[j]? = (syms[j]?).map fun sj =>
          pyLower sj ++ "@depth" ++ toString level ++ "@" ++ toString speed
            ++ "ms") ∧
    partial_book_depth (.one s) i level speed cb kw =
      [{ streams := .one (pyLower s ++ "@depth" ++ toString level ++ "@"
           ++ toString speed ++ "ms"),
         id := i, callback := cb, kwargs := kw }] := by
  refine ⟨⟨syms.map fun sj => depthStreamName sj level speed, rfl, by simp, ?_⟩, rfl⟩
  intro j
  simp [List.getElem?_map, depthStreamName]

/-- C2: every convenience method of the client performs exactly one
`live_subscribe` call. In this embedding each method is a pure function of its
explicit arguments into the list of calls it makes — it takes no client state
and returns none — so identical arguments yield identical stream names by
construction, and the single-element result is its only effect. -/
theorem convenience_methods_single_call {κ μ : Type} :
    (∀ (s : String) (i : Int) (cb : κ) (kw : μ),
      (agg_trade s i cb kw).length = 1) ∧
    (∀ s i v (cb : κ) (kw : μ), (mark_price s i v cb kw).length = 1) ∧
    (∀ s i iv (cb : κ) (kw : μ), (kline s i iv cb kw).length = 1) ∧
    (∀ p i ct iv (cb : κ) (kw : μ),
      (continuous_kline p i ct iv cb kw).length = 1) ∧
    (∀ i (cb : κ) sym (kw : μ), (mini_ticker i cb sym kw).length = 1) ∧
    (∀ i (cb : κ) sym (kw : μ), (ticker i cb sym kw).length = 1) ∧
    (∀ i (cb : κ) sym (kw : μ), (book_ticker i cb sym kw).length = 1) ∧
    (∀ i (cb : κ) sym (kw : μ), (liquidation_order i cb sym kw).length = 1) ∧
    (∀ syms i lv sp (cb : κ) (kw : μ),
      (partial_book_depth syms i lv sp cb kw).length = 1) ∧
    (∀ s i sp (cb : κ) (kw : μ), (diff_book_depth s i sp cb kw).length = 1) ∧
    (∀ s i (cb : κ) (kw : μ), (composite_index s i cb kw).length = 1) ∧
    (∀ k i (cb : κ) (kw : μ), (user_data k i cb kw).length = 1) := by
  refine ⟨fun _ _ _ _ => rfl, fun _ _ _ _ _ => rfl, fun _ _ _ _ _ => rfl,
    fun _ _ _ _ _ _ => rfl, ?_, ?_, ?_, ?_, ?_, fun _ _ _ _ _ => rfl,
    fun _ _ _ _ => rfl, fun _ _ _ _ => rfl⟩
  · intro i cb sym kw
    cases sym <;> rfl
  · intro i cb sym kw
    cases sym <;> rfl
  · intro i cb sym kw
    cases sym <;> rfl
  · intro i cb sym kw
    cases sym <;> rfl
  · intro syms i lv sp cb kw
    cases syms <;> rfl

/-- C7: every convenience method passes the caller's callback object to
`live_subscribe` unchanged — the callback field of its single call is the very
argument, for an arbitrary opaque callback type (no wrapping or adaptation is
possible over an opaque `κ`), matching the one-argument handler contract. -/
theorem callbacks_passed_through_unchanged {κ μ : Type} :
    (∀ (s : String) (i : Int) (cb : κ) (kw : μ),
      (agg_trade s i cb kw).map LiveSubscribeCall.callback = [cb]) ∧
    (∀ s i v (cb : κ) (kw : μ),
      (mark_price s i v cb kw).map LiveSubscribeCall.callback = [cb]) ∧
    (∀ s i iv (cb : κ) (kw : μ),
      (kline s i iv cb kw).map LiveSubscribeCall.callback = [cb]) ∧
    (∀ p i ct iv (cb : κ) (kw : μ),
      (continuous_kline p i ct iv cb kw).map LiveSubscribeCall.callback = [cb]) ∧
    (∀ i (cb : κ) sym (kw : μ),
      (mini_ticker i cb sym kw).map LiveSubscribeCall.callback = [cb]) ∧
    (∀ i (cb : κ) sym (kw : μ),
      (ticker i cb sym kw).map LiveSubscribeCall.callback = [cb]) ∧
    (∀ i (cb : κ) sym (kw : μ),
      (book_ticker i cb sym kw).map LiveSubscribeCall.callback = [cb]) ∧
    (∀ i (cb : κ) sym (kw : μ),
      (liquidation_order i cb sym kw).map LiveSubscribeCall.callback = [cb]) ∧
    (∀ syms i lv sp (cb : κ) (kw : μ),
      (partial_book_depth syms i lv sp cb kw).map LiveSubscribeCall.callback
        = [cb]) ∧
    (∀ s i sp (cb : κ) (kw : μ),
      (diff_book_depth s i sp cb kw).map LiveSubscribeCall.callback = [cb]) ∧
    (∀ s i (cb : κ) (kw : μ),
      (composite_index s i cb kw).map LiveSubscribeCall.callback = [cb]) ∧
    (∀ k i (cb : κ) (kw : μ),
      (user_data k i cb kw).map LiveSubscribeCall.callback = [cb]) := by
  refine ⟨fun _ _ _ _ => rfl, fun _ _ _ _ _ => rfl, fun _ _ _ _ _ => rfl,
    fun _ _ _ _ _ _ => rfl, ?_, ?_, ?_, ?_, ?_, fun _ _ _ _ _ => rfl,
    fun _ _ _ _ => rfl, fun _ _ _ _ => rfl⟩
  · intro i cb sym kw
    cases sym <;> rfl
  · intro i cb sym kw
    cases sym <;> rfl
  · intro i cb sym kw
    cases sym <;> rfl
  · intro i cb sym kw
    cases sym <;> rfl
  · intro syms i lv sp cb kw
    cases syms <;> rfl

theorem depthStreamName_pyUpper (s : String) (l v : Int) :
    depthStreamName (pyUpper s) l v = depthStreamName s l v := by
  unfold depthStreamName
  rw [pyLower_pyUpper]

/-- C9: every method taking a symbol or pair lowercases it, so its stream name
is unchanged when the argument is uppercased; `continuous_kline` embeds
`contractType` and `interval` verbatim and `user_data` embeds `listen_key`
verbatim, so changing the case of those arguments changes the stream name. -/
theorem symbol_case_invariance {κ μ : Type} :
    (∀ (s : String) (i : Int) (cb : κ) (kw : μ),
      agg_trade (pyUpper s) i cb kw = agg_trade s i cb kw) ∧
    (∀ s i v (cb : κ) (kw : μ),
      mark_price (pyUpper s) i v cb kw = mark_price s i v cb kw) ∧
    (∀ s i iv (cb : κ) (kw : μ),
      kline (pyUpper s) i iv cb kw = kline s i iv cb kw) ∧
    (∀ p i ct iv (cb : κ) (kw : μ),
      continuous_kline (pyUpper p) i ct iv cb kw
        = continuous_kline p i ct iv cb kw) ∧
    (∀ i (cb : κ) s (kw : μ),
      mini_ticker i cb (some (pyUpper s)) kw = mini_ticker i cb (some s) kw) ∧
    (∀ i (cb : κ) s (kw : μ),
      ticker i cb (some (pyUpper s)) kw = ticker i cb (some s) kw) ∧
    (∀ i (cb : κ) s (kw : μ),
      book_ticker i cb (some (pyUpper s)) kw = book_ticker i cb (some s) kw) ∧
    (∀ i (cb : κ) s (kw : μ),
      liquidation_order i cb (some (pyUpper s)) kw
        = liquidation_order i cb (some s) kw) ∧
    (∀ s i lv sp (cb : κ) (kw : μ),
      partial_book_depth (.one (pyUpper s)) i lv sp cb kw
        = partial_book_depth (.one s) i lv sp cb kw) ∧
    (∀ syms i lv sp (cb : κ) (kw : μ),
      partial_book_depth (.many (syms.map pyUpper)) i lv sp cb kw
        = partial_book_depth (.many syms) i lv sp cb kw) ∧
    (∀ s i sp (cb : κ) (kw : μ),
      diff_book_depth (pyUpper s) i sp cb kw = diff_book_depth s i sp cb kw) ∧
    (∀ s i (cb : κ) (kw : μ),
      composite_index (pyUpper s) i cb kw = composite_index s i cb kw) ∧
    continuous_kline "btcusdt" 1 "PERPETUAL" "1m" () ()
      ≠ continuous_kline "btcusdt" 1 "perpetual" "1m" () () ∧
    continuous_kline "btcusdt" 1 "perpetual" "1M" () ()
      ≠ continuous_kline "btcusdt" 1 "perpetual" "1m" () () ∧
    user_data "AbCdEf" 1 () () ≠ user_data "abcdef" 1 () () := by
  refine ⟨?_, ?_, ?_, ?_, ?_, ?_, ?_, ?_, ?_, ?_, ?_, ?_, by decide, by decide,
    by decide⟩
  · intro s i cb kw
    simp [agg_trade, pyLower_pyUpper]
  · intro s i v cb kw
    simp [mark_price, pyLower_pyUpper]
  · intro s i iv cb kw
    simp [kline, pyLower_pyUpper]
  · intro p i ct iv cb kw
    simp [continuous_kline, pyLower_pyUpper]
  · intro i cb s kw
    simp [mini_ticker, pyLower_pyUpper]
  · intro i cb s kw
    simp [ticker, pyLower_pyUpper]
  · intro i cb s kw
    simp [book_ticker, pyLower_pyUpper]
  · intro i cb s kw
    simp [liquidation_order, pyLower_pyUpper]
  · intro s i lv sp cb kw
    simp [partial_book_depth, depthStreamName_pyUpper]
  · intro syms i lv sp cb kw
    simp only [partial_book_depth, List.map_map]
    have h : (fun s => depthStreamName s lv sp) ∘ pyUpper
        = fun s => depthStreamName s lv sp :=
      funext fun s => depthStreamName_pyUpper s lv sp
    rw [h]
  · intro s i sp cb kw
    simp [diff_book_depth, pyLower_pyUpper]
  · intro s i cb kw
    simp [composite_index, pyLower_pyUpper]

/-- C5: a `subscribe` whose id is already present and not `Removed` fails with
`DuplicateSubscriptionId`, returned synchronously, and leaves the registry
unchanged; and for any starting registry, two consecutive adds under the same
id (before any removal) make the second fail with `DuplicateSubscriptionId`. -/
theorem duplicate_subscribe_fails {κ : Type} (r : Registry κ) (i : Int)
    (streams : List String) (cb : κ)
    (h : ∃ s ∈ r.subs, s.id = i ∧ s.state ≠ SubState.Removed) :
    (r.add i streams cb).1 = .error .DuplicateSubscriptionId ∧
    (r.add i streams cb).2 = r ∧
    ∀ (r0 : Registry κ) (st1 : List String) (cb1 : κ) (st2 : List String)
      (cb2 : κ),
      ((r0.add i st1 cb1).2.add i st2 cb2).1
        = .error .DuplicateSubscriptionId := by
  have hb : r.hasLiveId i = true := by
    obtain ⟨s, hs, hid, hst⟩ := h
    unfold Registry.hasLiveId
    rw [List.any_eq_true]
    refine ⟨s, hs, ?_⟩
    simp [hid, hst]
  refine ⟨by simp [Registry.add, hb], by simp [Registry.add, hb], ?_⟩
  intro r0 st1 cb1 st2 cb2
  by_cases h0 : r0.hasLiveId i
  · simp [Registry.add, h0]
  · have h2 : (Registry.mk (κ := κ)
        (r0.subs ++ [⟨i, st1, cb1, .Pending⟩])).hasLiveId i = true := by
      unfold Registry.hasLiveId
      rw [List.any_eq_true]
      exact ⟨⟨i, st1, cb1, .Pending⟩, by simp, by simp⟩
    simp [Registry.add, h0, h2]

/-- Witness for C5 at a concrete registry: the registry already holds id 1
live, so adding id 1 again fails with `DuplicateSubscriptionId`. -/
theorem duplicate_subscribe_fails_witness :
    ((Registry.mk [⟨1, ["btcusdt@aggTrade"], (), SubState.Pending⟩]
        : Registry Unit).add 1 ["btcusdt@aggTrade"] ()).1
      = .error .DuplicateSubscriptionId :=
  (duplicate_subscribe_fails
    (Registry.mk [⟨1, ["btcusdt@aggTrade"], (), SubState.Pending⟩]) 1
    ["btcusdt@aggTrade"] ()
    ⟨⟨1, ["btcusdt@aggTrade"], (), SubState.Pending⟩, by simp, rfl,
      by simp⟩).1

/-- C4: after a connection drop and a successful reconnection, assuming the
spec's id-uniqueness invariant among non-`Removed` entries: every subscription
`Active` before the drop is replayed as a Subscribe command with its original
id; no id receives a duplicate Subscribe; the replay is exactly the registry
snapshot in order, issued in the one atomic reconnect step with no caller
action; and the server-visible set after replay equals the registry's active
set. -/
theorem reconnect_replays_active {κ : Type} (st : ClientState κ)
    (hids : ((st.registry.subs.filter fun s =>
        !(s.state == SubState.Removed)).map Subscription.id).Nodup) :
    (∀ s ∈ st.registry.subs, s.state = SubState.Active →
      (⟨CmdKind.Subscribe, s.id, s.streams⟩ : Command)
        ∈ replay (connectionDrop st).registry) ∧
    ((replay (connectionDrop st).registry).map Command.id).Nodup ∧
    (∀ c ∈ replay (connectionDrop st).registry, c.kind = CmdKind.Subscribe) ∧
    replay (connectionDrop st).registry
      = st.registry.snapshot.map (fun s => ⟨CmdKind.Subscribe, s.id, s.streams⟩) ∧
    (reconnect (connectionDrop st)).serverSubs
      = st.registry.snapshot.map fun s => (s.id, s.streams) := by
  have hreg : (connectionDrop st).registry = st.registry := rfl
  refine ⟨?_, ?_, ?_, rfl, ?_⟩
  · intro s hs hact
    rw [hreg]
    unfold replay Registry.snapshot
    exact List.mem_map_of_mem _ (List.mem_filter.2 ⟨hs, by simp [hact]⟩)
  · rw [hreg]
    unfold replay
    rw [List.map_map]
    have hcomp : Command.id ∘ (fun s : Subscription κ =>
        (⟨CmdKind.Subscribe, s.id, s.streams⟩ : Command)) = Subscription.id := rfl
    rw [hcomp]
    refine List.Sublist.nodup (List.Sublist.map Subscription.id ?_) hids
    unfold Registry.snapshot
    refine List.monotone_filter_right _ ?_
    intro s hs
    simp only [beq_iff_eq] at hs
    simp [hs]
  · intro c hc
    rw [hreg] at hc
    unfold replay at hc
    obtain ⟨s, _, rfl⟩ := List.mem_map.1 hc
    rfl
  · show (replay st.registry).map (fun c => (c.id, c.params))
        = st.registry.snapshot.map fun s => (s.id, s.streams)
    unfold replay
    rw [List.map_map]
    rfl

/-- Witness for C4 at a concrete client state holding an `Active`, a `Removed`
and a `Pending` subscription: the server-visible set after drop and reconnect
is exactly the snapshot's (id, streams) pairs. -/
theorem reconnect_replays_active_witness :
    (reconnect (connectionDrop (ClientState.mk (Registry.mk
        [⟨1, ["btcusdt@aggTrade"], (), SubState.Active⟩,
         ⟨2, ["ethusdt@ticker"], (), SubState.Removed⟩,
         ⟨3, ["bnbusdt@kline_1m"], (), SubState.Pending⟩]) true
        [(1, ["btcusdt@aggTrade"])]))).serverSubs
      = (Registry.mk (κ := Unit)
          [⟨1, ["btcusdt@aggTrade"], (), SubState.Active⟩,
           ⟨2, ["ethusdt@ticker"], (), SubState.Removed⟩,
           ⟨3, ["bnbusdt@kline_1m"], (), SubState.Pending⟩]).snapshot.map
          (fun s => (s.id, s.streams)) :=
  (reconnect_replays_active (ClientState.mk (Registry.mk
      [⟨1, ["btcusdt@aggTrade"], (), SubState.Active⟩,
       ⟨2, ["ethusdt@ticker"], (), SubState.Removed⟩,
       ⟨3, ["bnbusdt@kline_1m"], (), SubState.Pending⟩]) true
      [(1, ["btcusdt@aggTrade"])])
    (by decide)).2.2.2.2

end BinanceWS
